import Mathlib

/-!
Shallow embedding of `backend/audio-sep/gradio_app.py`, the asynchronous
job runner with live progress streaming (`separate_with_progress`, its
`QueueHandler`, its background `worker`, and the poll/drain consumer loop).

Modelling conventions:
* A Python string is a Lean `String`.
* The behaviour of one call of the opaque Processor (`separator.separate`)
  is a `ProcBehavior`: the log records it emits through `separator.logger`
  while running, and its outcome — either the returned value (`None` or a
  list of file names, hence `Option (List String)`) or a raised exception,
  already stringified as `str(e)` is in the `except` clause.
* The generator body of `separate_with_progress` is embedded as the trace
  of its observable actions (`GAction`): queue creation, handler
  attach/detach, thread start, raising `FileNotFoundError`, and each
  `yield`.  Because the progress queue is FIFO and the poll loop pops every
  message in order (timeouts merely re-iterate), the sequence of yielded
  pairs is independent of the thread interleaving and equals the run of
  the loop over the queue's complete contents; the post-completion view of
  the queue is `logs.map format ++ [SENTINEL]`, the worker's `finally`
  making the sentinel the last push.
* The separately fuelled `pollFuel` models the poll-loop iterations after
  the background thread has finished (each `get(timeout=0.2)` attempt is
  one iteration; an empty queue with a dead thread breaks), for the
  bounded-termination claim.
-/

namespace AudioSep

/-- A log record as seen by `QueueHandler.emit`, restricted to the fields
its `logging.Formatter("%(asctime)s - %(levelname)s - %(message)s")`
reads. -/
structure LogRecord where
  asctime : String
  levelname : String
  message : String
deriving DecidableEq, Repr

/-- Formatting performed by the `QueueHandler`'s formatter:
`"%(asctime)s - %(levelname)s - %(message)s"`. -/
def formatRecord (r : LogRecord) : String :=
  r.asctime ++ " - " ++ r.levelname ++ " - " ++ r.message

/-- The completion sentinel pushed by the worker's `finally` block
(line 86). -/
def SENTINEL : String := "__SEPARATION_DONE__"

/-- Behaviour of one invocation of the opaque Processor
(`separator.separate(str(audio_path))`): the log records emitted through
`separator.logger` while it runs, and its outcome (`Except.error e` models
a raised exception whose `str` is `e`; `Except.ok fs` models a normal
return, with `none` for Python `None`). -/
structure ProcBehavior where
  logs : List LogRecord
  outcome : Except String (Option (List String))
deriving Repr

/-- Observable events of the background `worker` (lines 78-86): writing
`result["files"]`, writing `result["error"]`, pushing the sentinel, or an
exception escaping the worker (which the code never produces: the bare
`except Exception` catches everything). -/
inductive WEvent where
  | writeFiles (fs : Option (List String))
  | writeError (msg : String)
  | pushSentinel
  | raiseOut (msg : String)
deriving DecidableEq, Repr

/-- The `try`/`except` part of `worker`: on normal return write
`result["files"]`, on exception write `result["error"] = str(e)`. -/
def workerBody (pb : ProcBehavior) : List WEvent :=
  match pb.outcome with
  | Except.ok fs => [WEvent.writeFiles fs]
  | Except.error e => [WEvent.writeError e]

/-- The `finally` clause of `worker`: whatever events the body produced
(even if it stopped early), the sentinel push runs last. -/
def workerRun (body : List WEvent) : List WEvent :=
  body ++ [WEvent.pushSentinel]

/-- Full event trace of `worker` for a given Processor behaviour. -/
def worker (pb : ProcBehavior) : List WEvent :=
  workerRun (workerBody pb)

/-- The shared `result` dict after the worker finished:
`{"files": ..., "error": ...}`, both initialized to `None`; a `files`
value of Python `None` and an untouched `files` slot are both `none`,
exactly as `result.get("files")` cannot tell them apart. -/
structure ResultSlot where
  files : Option (List String)
  error : Option String
deriving DecidableEq, Repr

/-- State of `result` once `worker` has run. -/
def workerResult (pb : ProcBehavior) : ResultSlot :=
  match pb.outcome with
  | Except.ok fs => ⟨fs, none⟩
  | Except.error e => ⟨none, some e⟩

/-- Python truthiness test `if result.get("error"):` — true exactly for a
present, non-empty error string. -/
def errorTruthy (res : ResultSlot) : Bool :=
  match res.error with
  | some e => e ≠ ""
  | none => false

/-- Python `"\n".join(logs)`. -/
def joinNl (logs : List String) : String :=
  String.intercalate "\n" logs

/-- Does the character list `pat` start the character list `s`? -/
def startsWithList : List Char → List Char → Bool
  | [], _ => true
  | _ :: _, [] => false
  | a :: as, b :: bs => a = b && startsWithList as bs

/-- Split a character list at `'/'` boundaries into its (possibly empty)
stretches between slashes. -/
def splitSlash : List Char → List (List Char)
  | [] => [[]]
  | c :: rest =>
    if c = '/' then [] :: splitSlash rest
    else
      match splitSlash rest with
      | [] => [[c]]
      | seg :: segs => (c :: seg) :: segs

/-- The path segments pathlib parses out of a string: the stretches
between slashes, with empty stretches and `"."` dropped (pathlib
collapses repeated slashes and `"."` segments; `".."` is kept). -/
def segments (fname : String) : List String :=
  ((splitSlash fname.data).map String.mk).filter (fun seg => seg ≠ "" && seg ≠ ".")

/-- Embedding of `str((BASE_OUTPUT_DIR / fname).absolute())` (line 126)
for an absolute, normalized `BASE_OUTPUT_DIR` (the base is built by
pathlib itself, so its string holds no empty or `"."` segments).  Pathlib
parses `fname` into `segments`; when `fname` is itself absolute the base
is discarded entirely and the root is kept (POSIX preserves exactly two
leading slashes as a `"//"` root); otherwise the surviving segments are
appended under the base, none surviving leaving the bare base.  `".."`
segments survive both pathlib's parse and `absolute()`, which does not
resolve them. -/
def pathJoin (base fname : String) : String :=
  if startsWithList ("/".data) fname.data then
    (if startsWithList ("//".data) fname.data
        && !startsWithList ("///".data) fname.data
     then "//" else "/")
      ++ String.intercalate "/" (segments fname)
  else
    match segments fname with
    | [] => base
    | _ :: _ => base ++ "/" ++ String.intercalate "/" (segments fname)

/-- A yielded pair `(logs_text, files_list_or_None)`. -/
abbrev Yield : Type := String × Option (List String)

/-- Observable actions of the generator `separate_with_progress`. -/
inductive GAction where
  | raiseFileNotFound (msg : String)
  | createQueue
  | attachHandler
  | startWorker
  | yieldPair (logText : String) (files : Option (List String))
  | detachHandler
deriving DecidableEq, Repr

/-- The poll loop (lines 94-107) run over the queue's contents: pops lines
in FIFO order; breaks on the sentinel (or, defensively, when the thread is
dead and the queue exhausted); otherwise appends the line to `logs` and
yields the joined text.  Returns (yielded pairs, final `logs`, lines still
queued after the break). -/
def pollLoop : List String → List String → (List Yield × List String × List String)
  | [], logs => ([], logs, [])
  | line :: rest, logs =>
    if line = SENTINEL then ([], logs, rest)
    else
      let logs' := logs ++ [line]
      let r := pollLoop rest logs'
      ((joinNl logs', none) :: r.1, r.2)

/-- The drain loop (lines 110-114): empty the queue into `logs`, skipping
any further sentinel occurrences. -/
def drain (rem : List String) (logs : List String) : List String :=
  logs ++ rem.filter (fun l => l ≠ SENTINEL)

/-- Finalization (lines 118-128): on a truthy `result["error"]`, yield the
logs with the `ERROR:` annotation and no files; otherwise resolve
`result.get("files") or []` against the output directory and yield the
file paths. -/
def finalize (baseDir : String) (res : ResultSlot) (logs : List String) : List Yield :=
  if errorTruthy res then
    [(joinNl logs ++ "\nERROR: " ++ res.error.getD "", none)]
  else
    [(joinNl logs, some ((res.files.getD []).map (pathJoin baseDir)))]

/-- Full action trace of one run of the generator `separate_with_progress`
(lines 41-128), parameterized by the absolute output directory
(`BASE_OUTPUT_DIR` is machine-dependent), the `audio_filepath` argument,
whether `Path(audio_filepath).is_file()` holds, and the Processor's
behaviour.  If the file is missing, `FileNotFoundError` is raised before
anything else; otherwise: create the queue, attach the handler, start the
worker thread, run the poll loop over the queue contents
(`logs.map formatRecord ++ [SENTINEL]`, the worker's pushes in emission
order), drain, detach the handler, and yield the final pair. -/
def separate_with_progress (baseDir fp : String) (fileExists : Bool)
    (pb : ProcBehavior) : List GAction :=
  if fileExists then
    let q := pb.logs.map formatRecord ++ [SENTINEL]
    let res := workerResult pb
    let p := pollLoop q []
    let logsFinal := drain p.2.2 p.2.1
    [GAction.createQueue, GAction.attachHandler, GAction.startWorker]
      ++ p.1.map (fun y => GAction.yieldPair y.1 y.2)
      ++ [GAction.detachHandler]
      ++ (finalize baseDir res logsFinal).map (fun y => GAction.yieldPair y.1 y.2)
  else
    [GAction.raiseFileNotFound ("Uploaded file not found: " ++ fp)]

/-- The pairs a consumer of the generator receives, in order. -/
def yieldsOf (tr : List GAction) : List Yield :=
  tr.filterMap (fun a =>
    match a with
    | GAction.yieldPair l f => some (l, f)
    | _ => none)

/-- The yielded sequence of a run on an existing input file. -/
def outputs (baseDir fp : String) (pb : ProcBehavior) : List Yield :=
  yieldsOf (separate_with_progress baseDir fp true pb)

/-- One modelled iteration per fuel unit of the poll loop after the
background thread has finished: `get(timeout=0.2)` returns the head when
the queue is non-empty; on `queue.Empty` with the thread dead the loop
breaks.  `none` means the fuel ran out before the loop broke. -/
def pollFuel : Nat → List String → List String → Option (List Yield × List String × List String)
  | 0, _, _ => none
  | _ + 1, [], logs => some ([], logs, [])
  | n + 1, line :: rest, logs =>
    if line = SENTINEL then some ([], logs, rest)
    else
      let logs' := logs ++ [line]
      (pollFuel n rest logs').map (fun r => ((joinNl logs', none) :: r.1, r.2))

/-- Is a generator action a `yield`? -/
def isYield : GAction → Bool
  | GAction.yieldPair _ _ => true
  | _ => false

/-- The actions the generator actually executes when the consumer abandons
it after receiving `k` yielded pairs: everything up to and including the
k-th `yield`; Python then raises `GeneratorExit` at that suspension point
and, with no `try`/`finally` in the body, no later statement runs. -/
def closedAfter (k : Nat) : List GAction → List GAction
  | [] => []
  | a :: rest =>
    if isYield a then
      if k ≤ 1 then [a] else a :: closedAfter (k - 1) rest
    else
      a :: closedAfter k rest

/-- Dispatch of one log record by the shared `separator.logger` (the
module-level `separator`, line 194): `logging` hands the record to every
attached handler, and each attached `QueueHandler` formats it and pushes
it onto its own job's queue.  Handlers are identified by job id. -/
def loggerCallHandlers (handlers : List Nat) (r : LogRecord) : List (Nat × String) :=
  handlers.map (fun j => (j, formatRecord r))

/-- Closed form of the intermediate yields the poll loop produces from a
sentinel-free message list, starting from accumulated lines `acc`: one
pair per message, each with the cumulative joined text and absent files. -/
def pairsOf (acc : List String) : List String → List Yield
  | [] => []
  | m :: rest => (joinNl (acc ++ [m]), none) :: pairsOf (acc ++ [m]) rest

/-- True exactly on the two outcome-slot writes of the worker. -/
def isOutcomeWrite : WEvent → Bool
  | WEvent.writeFiles _ => true
  | WEvent.writeError _ => true
  | _ => false

lemma dash_mem_formatRecord (r : LogRecord) : '-' ∈ (formatRecord r).data := by
  unfold formatRecord
  rw [String.data_append, String.data_append, String.data_append, String.data_append]
  simp only [List.mem_append]
  have h : '-' ∈ (" - ").data := by decide
  tauto

lemma formatRecord_ne_sentinel (r : LogRecord) : formatRecord r ≠ SENTINEL := by
  intro h
  have hd := dash_mem_formatRecord r
  rw [h] at hd
  revert hd
  decide

lemma pollLoop_clean (msgs : List String) (acc : List String)
    (h : ∀ m ∈ msgs, m ≠ SENTINEL) :
    pollLoop (msgs ++ [SENTINEL]) acc = (pairsOf acc msgs, acc ++ msgs, []) := by
  induction msgs generalizing acc with
  | nil => simp [pollLoop, pairsOf]
  | cons m rest ih =>
    have hm : m ≠ SENTINEL := h m (List.mem_cons_self _ _)
    simp only [List.cons_append, pollLoop, if_neg hm, List.append_eq]
    rw [ih (acc ++ [m]) (fun x hx => h x (List.mem_cons_of_mem _ hx))]
    simp [pairsOf]

lemma pairsOf_length (msgs : List String) (acc : List String) :
    (pairsOf acc msgs).length = msgs.length := by
  induction msgs generalizing acc with
  | nil => rfl
  | cons m rest ih => simp [pairsOf, ih]

lemma pairsOf_snd_none (msgs : List String) (acc : List String) :
    ∀ y ∈ pairsOf acc msgs, y.2 = none := by
  induction msgs generalizing acc with
  | nil => intro y hy; cases hy
  | cons m rest ih =>
    intro y hy
    rcases List.mem_cons.mp hy with h | h
    · rw [h]
    · exact ih (acc ++ [m]) y h

lemma yieldsOf_append (t₁ t₂ : List GAction) :
    yieldsOf (t₁ ++ t₂) = yieldsOf t₁ ++ yieldsOf t₂ :=
  List.filterMap_append t₁ t₂ _

lemma yieldsOf_map_yieldPair (l : List Yield) :
    yieldsOf (l.map (fun y => GAction.yieldPair y.1 y.2)) = l := by
  induction l with
  | nil => rfl
  | cons y rest ih => simp [yieldsOf, List.filterMap_cons] at ih ⊢; exact ih

/-- The yielded sequence of a run on an existing input: the cumulative
intermediate pairs followed by the single final pair. -/
lemma outputs_eq (baseDir fp : String) (pb : ProcBehavior) :
    outputs baseDir fp pb =
      pairsOf [] (pb.logs.map formatRecord)
        ++ finalize baseDir (workerResult pb) (pb.logs.map formatRecord) := by
  unfold outputs separate_with_progress
  simp only [if_true]
  rw [pollLoop_clean (pb.logs.map formatRecord) []
        (fun m hm => by
          rcases List.mem_map.mp hm with ⟨r, _, hr⟩
          rw [← hr]; exact formatRecord_ne_sentinel r)]
  simp only [drain, List.filter_nil, List.append_nil, List.nil_append]
  rw [yieldsOf_append, yieldsOf_append, yieldsOf_append]
  rw [yieldsOf_map_yieldPair, yieldsOf_map_yieldPair]
  simp [yieldsOf]

lemma startsWithList_self_append (p s : List Char) :
    startsWithList p (p ++ s) = true := by
  induction p with
  | nil => rfl
  | cons a as ih => simp [startsWithList, ih]

lemma startsWithList_append_right (p l m : List Char)
    (h : startsWithList p l = true) : startsWithList p (l ++ m) = true := by
  induction p generalizing l with
  | nil => rfl
  | cons a as ih =>
    cases l with
    | nil => simp [startsWithList] at h
    | cons b bs =>
      simp only [startsWithList, Bool.and_eq_true, decide_eq_true_eq] at h ⊢
      exact ⟨h.1, ih bs h.2⟩

lemma pollFuel_bounded (q : List String) (logs : List String) :
    pollFuel (q.length + 1) q logs = some (pollLoop q logs) := by
  induction q generalizing logs with
  | nil => rfl
  | cons line rest ih =>
    by_cases h : line = SENTINEL
    · simp [pollFuel, pollLoop, h]
    · simp [pollFuel, pollLoop, h, ih]

lemma splitSlash_no_slash (l : List Char) (h : '/' ∉ l) : splitSlash l = [l] := by
  induction l with
  | nil => rfl
  | cons c rest ih =>
    have hc : ¬(c = '/') := by
      intro hcc
      exact h (by rw [hcc]; exact List.mem_cons_self _ _)
    have hr : '/' ∉ rest := fun hm => h (List.mem_cons_of_mem _ hm)
    simp [splitSlash, if_neg hc, ih hr]

lemma segments_plain (f : String) (h0 : f ≠ "") (h1 : f ≠ ".")
    (h2 : '/' ∉ f.data) : segments f = [f] := by
  have hmk : String.mk f.data = f := by
    cases f
    rfl
  unfold segments
  rw [splitSlash_no_slash f.data h2]
  simp [hmk, h0, h1]

lemma pathJoin_plainName (base f : String) (h0 : f ≠ "") (h1 : f ≠ ".")
    (h2 : '/' ∉ f.data) : pathJoin base f = base ++ "/" ++ f := by
  have hns : startsWithList ("/".data) f.data = false := by
    cases hd : f.data with
    | nil => exact absurd (String.ext hd) h0
    | cons c cs =>
      have hc : ¬('/' = c) := by
        intro hcc
        exact h2 (by rw [hd, ← hcc]; exact List.mem_cons_self _ _)
      simp [startsWithList, hc]
  have hseg := segments_plain f h0 h1 h2
  unfold pathJoin
  rw [if_neg (by simp [hns]), hseg]
  rfl

/-- Processor behaviour of concrete scenario C: one log line, then an
exception with message `"disk full"`. -/
def pbScenarioC : ProcBehavior :=
  ⟨[⟨"12:00:00", "INFO", "reading input"⟩], Except.error "disk full"⟩

/-- C1 (counterexample): on the scenario-C job the consumer's final pair
is `("12:00:00 - INFO - reading input\nERROR: disk full", none)`; its
artifacts field is Python `None` (absent), not the empty artifact list
the claim states (`yield (full_logs, None)` on line 122, where the empty
list would be `some []`). -/
theorem c1_counterexample :
    (outputs "/work/output" "in.wav" pbScenarioC).getLast? =
      some ("12:00:00 - INFO - reading input\nERROR: disk full", none) ∧
    (none : Option (List String)) ≠ some [] := by
  decide

/-- C1 (amended): every failing Job (the Processor raised, any message)
yields one intermediate pair per log line and then terminates with
exactly one final pair.  When the exception's string is non-empty, that
final pair's log text is the accumulated logs followed by
`"\nERROR: " ++ message` and its artifacts field is absent (`none`); an
exception stringifying to `""` makes `if result.get("error"):` falsy, so
the code takes the success branch and the final pair instead carries a
present empty artifact list with no annotation. -/
theorem c1_failing_job_final_yield (baseDir fp e : String) (pb : ProcBehavior)
    (hout : pb.outcome = Except.error e) :
    outputs baseDir fp pb =
      pairsOf [] (pb.logs.map formatRecord)
        ++ [if e = ""
            then (joinNl (pb.logs.map formatRecord), some [])
            else (joinNl (pb.logs.map formatRecord) ++ "\nERROR: " ++ e, none)] ∧
    (pairsOf [] (pb.logs.map formatRecord)).length = pb.logs.length ∧
    ∀ y ∈ pairsOf [] (pb.logs.map formatRecord), y.2 = none := by
  refine ⟨?_, by rw [pairsOf_length, List.length_map], pairsOf_snd_none _ _⟩
  rw [outputs_eq]
  have hres : workerResult pb = ⟨none, some e⟩ := by
    unfold workerResult
    rw [hout]
  rw [hres]
  unfold finalize errorTruthy
  by_cases he : e = ""
  · subst he
    simp
  · simp [he]

/-- Witness for the amended C1 theorem at concrete scenario C. -/
theorem c1_failing_job_final_yield_witness :
    pbScenarioC.outcome = Except.error "disk full" ∧
    (outputs "/work/output" "in.wav" pbScenarioC =
        pairsOf [] (pbScenarioC.logs.map formatRecord)
          ++ [if "disk full" = ""
              then (joinNl (pbScenarioC.logs.map formatRecord), some [])
              else (joinNl (pbScenarioC.logs.map formatRecord) ++ "\nERROR: " ++ "disk full",
                    none)] ∧
      (pairsOf [] (pbScenarioC.logs.map formatRecord)).length = pbScenarioC.logs.length ∧
      ∀ y ∈ pairsOf [] (pbScenarioC.logs.map formatRecord), y.2 = none) :=
  ⟨rfl, c1_failing_job_final_yield "/work/output" "in.wav" "disk full" pbScenarioC rfl⟩

/-- C2: the background worker pushes the completion sentinel exactly
once, its trace is exactly one outcome-slot write followed by the
sentinel push (so the push is strictly after the outcome is written),
and the `finally` block makes the sentinel the last event of a worker run
over any body whatsoever, even one whose outcome-writing stopped early. -/
theorem c2_sentinel_once_after_outcome (pb : ProcBehavior) :
    (worker pb).count WEvent.pushSentinel = 1 ∧
    (∃ w, isOutcomeWrite w = true ∧ worker pb = [w, WEvent.pushSentinel]) ∧
    ∀ body : List WEvent, (workerRun body).getLast? = some WEvent.pushSentinel := by
  refine ⟨?_, ?_, ?_⟩
  · unfold worker workerRun workerBody
    cases pb.outcome <;> simp
  · unfold worker workerRun workerBody
    cases pb.outcome with
    | ok fs => exact ⟨WEvent.writeFiles fs, rfl, rfl⟩
    | error e => exact ⟨WEvent.writeError e, rfl, rfl⟩
  · intro body
    unfold workerRun
    exact List.getLast?_concat _

/-- C3: every exception the Processor raises during background execution
is caught by the worker, its string is recorded in `result["error"]`, the
outcome slot is not left empty, and no exception event escapes the
worker's trace. -/
theorem c3_processor_exception_captured (pb : ProcBehavior) (e : String)
    (hout : pb.outcome = Except.error e) :
    (workerResult pb).error = some e ∧
    worker pb = [WEvent.writeError e, WEvent.pushSentinel] ∧
    ∀ m, WEvent.raiseOut m ∉ worker pb := by
  unfold workerResult worker workerRun workerBody
  rw [hout]
  refine ⟨rfl, rfl, ?_⟩
  intro m
  simp

/-- Processor behaviour that raises with message `"boom"`. -/
def pbRaiseBoom : ProcBehavior := ⟨[], Except.error "boom"⟩

/-- Witness for the C3 theorem at a concrete raising Processor. -/
theorem c3_processor_exception_captured_witness :
    pbRaiseBoom.outcome = Except.error "boom" ∧
    ((workerResult pbRaiseBoom).error = some "boom" ∧
      worker pbRaiseBoom = [WEvent.writeError "boom", WEvent.pushSentinel] ∧
      ∀ m, WEvent.raiseOut m ∉ worker pbRaiseBoom) :=
  ⟨rfl, c3_processor_exception_captured pbRaiseBoom "boom" rfl⟩

/-- Processor behaviour returning one absolute artifact name. -/
def pbAbsName : ProcBehavior := ⟨[], Except.ok (some ["/etc/passwd"])⟩

/-- C4 (counterexample): when the Processor returns the absolute name
`"/etc/passwd"`, pathlib's `/` operator discards `BASE_OUTPUT_DIR`
(line 126), so the successful Job's single final artifact entry is
`"/etc/passwd"`, which is not rooted under the output directory. -/
theorem c4_counterexample :
    outputs "/work/output" "in.wav" pbAbsName = [("", some ["/etc/passwd"])] ∧
    startsWithList ("/work/output/").data ("/etc/passwd").data = false := by
  decide

/-- C4 (amended): for every successful Job whose returned artifact names
are all plain file names — non-empty, not `"."`, containing no `"/"` —
with the output directory absolute, the final pair's artifact entries are
exactly `baseDir ++ "/" ++ name` in the Processor's order — hence equal
in number to the Processor's list — and each entry is absolute and rooted
under the output directory. -/
theorem c4_success_paths (baseDir fp : String) (pb : ProcBehavior)
    (files : List String)
    (hout : pb.outcome = Except.ok (some files))
    (hbase : startsWithList ("/").data baseDir.data = true)
    (hrel : ∀ f ∈ files, f ≠ "" ∧ f ≠ "." ∧ '/' ∉ f.data) :
    outputs baseDir fp pb =
      pairsOf [] (pb.logs.map formatRecord)
        ++ [(joinNl (pb.logs.map formatRecord),
             some (files.map (fun f => baseDir ++ "/" ++ f)))] ∧
    (files.map (fun f => baseDir ++ "/" ++ f)).length = files.length ∧
    ∀ p ∈ files.map (fun f => baseDir ++ "/" ++ f),
      startsWithList ("/").data p.data = true ∧
      startsWithList ((baseDir ++ "/").data) p.data = true := by
  refine ⟨?_, List.length_map _ _, ?_⟩
  · rw [outputs_eq]
    have hres : workerResult pb = ⟨some files, none⟩ := by
      unfold workerResult
      rw [hout]
    rw [hres]
    unfold finalize errorTruthy
    simp only [if_neg]
    have hmap : files.map (pathJoin baseDir) = files.map (fun f => baseDir ++ "/" ++ f) :=
      List.map_congr_left (fun f hf =>
        pathJoin_plainName baseDir f (hrel f hf).1 (hrel f hf).2.1 (hrel f hf).2.2)
    simp [hmap]
  · intro p hp
    rcases List.mem_map.mp hp with ⟨f, hf, hpf⟩
    subst hpf
    constructor
    · have : (baseDir ++ "/" ++ f).data = baseDir.data ++ ("/" ++ f).data := by
        rw [String.append_assoc, String.data_append]
      rw [this]
      exact startsWithList_append_right _ _ _ hbase
    · have : (baseDir ++ "/" ++ f).data = (baseDir ++ "/").data ++ f.data := by
        rw [String.data_append]
      rw [this]
      exact startsWithList_self_append _ _

/-- Processor behaviour of concrete scenario B: three log lines, then a
normal return of `["a.wav"]`. -/
def pbScenarioB : ProcBehavior :=
  ⟨[⟨"12:00:00", "INFO", "one"⟩, ⟨"12:00:01", "INFO", "two"⟩,
    ⟨"12:00:02", "INFO", "three"⟩],
   Except.ok (some ["a.wav"])⟩

/-- Witness for the amended C4 theorem at concrete scenario B. -/
theorem c4_success_paths_witness :
    (pbScenarioB.outcome = Except.ok (some ["a.wav"]) ∧
      startsWithList ("/").data ("/work/output").data = true ∧
      ∀ f ∈ ["a.wav"], f ≠ "" ∧ f ≠ "." ∧ '/' ∉ f.data) ∧
    (outputs "/work/output" "in.wav" pbScenarioB =
        pairsOf [] (pbScenarioB.logs.map formatRecord)
          ++ [(joinNl (pbScenarioB.logs.map formatRecord),
               some ((["a.wav"] : List String).map (fun f => "/work/output" ++ "/" ++ f)))] ∧
      ((["a.wav"] : List String).map (fun f => "/work/output" ++ "/" ++ f)).length =
        (["a.wav"] : List String).length ∧
      ∀ p ∈ (["a.wav"] : List String).map (fun f => "/work/output" ++ "/" ++ f),
        startsWithList ("/").data p.data = true ∧
        startsWithList (("/work/output" ++ "/").data) p.data = true) :=
  ⟨⟨rfl, by decide, by decide⟩,
   c4_success_paths "/work/output" "in.wav" pbScenarioB ["a.wav"] rfl (by decide) (by decide)⟩

/-- Log record emitted by Job 1's Processor while Job 2 is also running. -/
def rJobOne : LogRecord := ⟨"12:00:01", "INFO", "job one progressing"⟩

/-- C5 (code bug): the handlers of two concurrently running Jobs are both
attached to the single module-level `separator.logger` (lines 74 and
194); `logging` dispatches every record to every attached handler, so a
record emitted during Job 1's processing is also pushed, formatted, onto
Job 2's queue — and Job 2's consumer then accumulates Job 1's line into
Job 2's log text and yields it. -/
theorem c5_cross_job_leak :
    (2, formatRecord rJobOne) ∈ loggerCallHandlers [1, 2] rJobOne ∧
    formatRecord rJobOne ∈ (pollLoop [formatRecord rJobOne, SENTINEL] []).2.1 ∧
    (pollLoop [formatRecord rJobOne, SENTINEL] []).1 =
      [(formatRecord rJobOne, none)] := by
  decide

/-- A Job whose Processor emits one log line and then succeeds. -/
def pbEarlyClose : ProcBehavior :=
  ⟨[⟨"12:00:00", "INFO", "reading input"⟩], Except.ok (some ["a.wav"])⟩

/-- C6 (code bug): `separator.logger.removeHandler(handler)` (line 116)
is not inside any `try`/`finally`; when the consumer abandons the
generator after receiving the first intermediate pair (early termination
of the consuming loop), the statements after that suspension point never
run, so the handler that was attached is never detached — although a full
run would detach it. -/
theorem c6_detach_skipped_on_early_close :
    GAction.attachHandler ∈
      closedAfter 1 (separate_with_progress "/work/output" "in.wav" true pbEarlyClose) ∧
    GAction.detachHandler ∉
      closedAfter 1 (separate_with_progress "/work/output" "in.wav" true pbEarlyClose) ∧
    GAction.detachHandler ∈
      separate_with_progress "/work/output" "in.wav" true pbEarlyClose := by
  decide

/-- C7: once the background execution has finished, the poll loop
terminates within `queue length + 1` further iterations — the fuelled
loop given that much fuel completes and agrees with the un-fuelled run —
and a Processor that succeeds having emitted zero log events still causes
exactly one pair to be yielded: the final one, with empty log text and
the resolved artifact paths. -/
theorem c7_poll_terminates_bounded (q logs : List String) (baseDir fp : String)
    (fs : List String) :
    pollFuel (q.length + 1) q logs = some (pollLoop q logs) ∧
    outputs baseDir fp ⟨[], Except.ok (some fs)⟩ =
      [("", some (fs.map (pathJoin baseDir)))] := by
  refine ⟨pollFuel_bounded q logs, ?_⟩
  rw [outputs_eq]
  simp only [pairsOf, finalize, errorTruthy, workerResult, List.map_nil, List.nil_append]
  rfl

lemma pollLoop_logs_no_sentinel (q acc : List String) (hacc : SENTINEL ∉ acc) :
    SENTINEL ∉ (pollLoop q acc).2.1 := by
  induction q generalizing acc with
  | nil => exact hacc
  | cons line rest ih =>
    by_cases h : line = SENTINEL
    · simpa [pollLoop, h] using hacc
    · have hacc' : SENTINEL ∉ acc ++ [line] := by
        intro hmem
        rcases List.mem_append.mp hmem with hl | hl
        · exact hacc hl
        · rcases List.mem_singleton.mp hl with rfl
          exact h rfl
      simpa [pollLoop, h] using ih (acc ++ [line]) hacc'

lemma drain_no_sentinel (rem logs : List String) (hlogs : SENTINEL ∉ logs) :
    SENTINEL ∉ drain rem logs := by
  intro hmem
  rcases List.mem_append.mp hmem with hl | hl
  · exact hlogs hl
  · have := (List.mem_filter.mp hl).2
    simp at this

/-- C8: no formatted log line ever equals the completion sentinel (every
formatted line contains the dash inserted by `" - "`, the sentinel
contains no dash), and starting from sentinel-free accumulated lines,
neither the poll loop nor the drain phase ever accumulates the sentinel
into the log lines, whatever the queue holds. -/
theorem c8_sentinel_never_visible (r : LogRecord) (q rem acc : List String)
    (hacc : SENTINEL ∉ acc) :
    formatRecord r ≠ SENTINEL ∧
    SENTINEL ∉ (pollLoop q acc).2.1 ∧
    SENTINEL ∉ drain rem (pollLoop q acc).2.1 :=
  ⟨formatRecord_ne_sentinel r,
   pollLoop_logs_no_sentinel q acc hacc,
   drain_no_sentinel rem _ (pollLoop_logs_no_sentinel q acc hacc)⟩

/-- Witness for the C8 theorem at a concrete record and queues that do
contain sentinel occurrences. -/
theorem c8_sentinel_never_visible_witness :
    SENTINEL ∉ ([] : List String) ∧
    (formatRecord ⟨"12:00:00", "INFO", "working"⟩ ≠ SENTINEL ∧
      SENTINEL ∉ (pollLoop [SENTINEL] []).2.1 ∧
      SENTINEL ∉ drain [SENTINEL] (pollLoop [SENTINEL] []).2.1) :=
  ⟨by decide,
   c8_sentinel_never_visible ⟨"12:00:00", "INFO", "working"⟩ [SENTINEL] [SENTINEL] []
     (by decide)⟩

/-- C9: for an input reference that resolves to no existing file, the
run's whole trace is the immediate `FileNotFoundError` raise: no Progress
Channel is created, no handler attached, and no background thread started
before that failure. -/
theorem c9_missing_input_fails_first (baseDir fp : String) (pb : ProcBehavior) :
    separate_with_progress baseDir fp false pb =
      [GAction.raiseFileNotFound ("Uploaded file not found: " ++ fp)] ∧
    GAction.createQueue ∉ separate_with_progress baseDir fp false pb ∧
    GAction.startWorker ∉ separate_with_progress baseDir fp false pb ∧
    GAction.attachHandler ∉ separate_with_progress baseDir fp false pb := by
  refine ⟨rfl, ?_, ?_, ?_⟩ <;> simp [separate_with_progress]

/-- C10: when the worker records no error and the Processor returned
Python `None` or the empty list, `result.get("files") or []` (line 125)
coerces the falsy value to `[]`: after the usual intermediate pairs the
final pair carries a present, empty artifact list and a log text without
any error annotation. -/
theorem c10_falsy_success_empty_list (baseDir fp : String)
    (logs : List LogRecord) (fsOpt : Option (List String))
    (h : fsOpt = none ∨ fsOpt = some []) :
    outputs baseDir fp ⟨logs, Except.ok fsOpt⟩ =
      pairsOf [] (logs.map formatRecord)
        ++ [(joinNl (logs.map formatRecord), some [])] := by
  rw [outputs_eq]
  rcases h with h | h <;> subst h <;> rfl

/-- Witness for the C10 theorem at a Processor that logs once and returns
Python `None`. -/
theorem c10_falsy_success_empty_list_witness :
    ((none : Option (List String)) = none ∨ (none : Option (List String)) = some []) ∧
    outputs "/work/output" "in.wav" ⟨[⟨"12:00:00", "INFO", "working"⟩], Except.ok none⟩ =
      pairsOf [] (([⟨"12:00:00", "INFO", "working"⟩] : List LogRecord).map formatRecord)
        ++ [(joinNl (([⟨"12:00:00", "INFO", "working"⟩] : List LogRecord).map formatRecord),
             some [])] :=
  ⟨Or.inl rfl,
   c10_falsy_success_empty_list "/work/output" "in.wav"
     [⟨"12:00:00", "INFO", "working"⟩] none (Or.inl rfl)⟩

end AudioSep
